import Mathlib

/-!
# Verification of the Sentinel session controller, dispatcher and proxy pool

Shallow embedding of the core of the Sentinel repository:

* the `Session` state machine (`session` package, `Session.Start` / `Pause` /
  `Resume` / `Abort` and the worker `runLoop`),
* the per-attempt dispatcher `Reporter.SendReport` (`report` package), and
* the proxy pool selection component `ProxyManager.GetProxy` /
  `GetAllProxies` (`proxy` package, `strategy.go`).

Go mutable structs are modelled as immutable records with operations returning
the updated record (paired with the returned `error`, a Go `nil` error being
`none`).  Wall-clock timestamps (`time.Time` fields), UUID generation and the
structured logging side channel are not observable through any property proved
here and are abstracted: string IDs default to `""` and timestamp fields are
omitted.  Counters are Go `int`s that are only ever incremented from zero and
bounded by the job count, so they are modelled as `Nat`.
-/

/-- Generic in-place update of the element at one index of a list (models a
Go write through `xs[i]` / a pointer held in a slice). Out-of-range indices
leave the list unchanged. -/
def listUpdateAt (f : α → α) : Nat → List α → List α
  | _, [] => []
  | 0, a :: as => f a :: as
  | n + 1, a :: as => a :: listUpdateAt f n as

/-- The eight session states of `session.SessionState`. -/
inductive SessionState
  | idle
  | running
  | paused
  | stopping
  | stopped
  | completed
  | aborted
  | failed
  deriving DecidableEq, Repr

/-- `session.ReportJob`: one report attempt of a session.  The `StartTime` and
`EndTime` wall-clock fields are not modelled. -/
structure ReportJob where
  id : String
  reportNumber : Nat
  status : String
  logID : String
  error : String
  deriving DecidableEq, Repr

/-- `session.Session`: the mutable session record.  `control` models the
contents of the buffered `controlChannel`; the `Reporter`, timestamps,
`ProxiesUsed` and the outbound `LogChannel` are not modelled. -/
structure Session where
  id : String
  state : SessionState
  targetURL : String
  numReportsToSend : Nat
  jobs : List ReportJob
  reportsAttemptedCount : Nat
  successfulReports : Nat
  failedReports : Nat
  control : List String
  deriving DecidableEq, Repr

/-- `session.NewSession`: builds an `Idle` session with `numReportsToSend`
clamped up to 1 and one pending job per report, carrying 1-based
`ReportNumber`s. -/
def NewSession (targetURL : String) (numReportsToSend : Int) : Session :=
  let n : Nat := if numReportsToSend ≤ 0 then 1 else numReportsToSend.toNat
  { id := ""
    state := .idle
    targetURL := targetURL
    numReportsToSend := n
    jobs := (List.range n).map fun i =>
      { id := "", reportNumber := i + 1, status := "pending", logID := "", error := "" }
    reportsAttemptedCount := 0
    successfulReports := 0
    failedReports := 0
    control := [] }

/-- The job-reset loop inside `Session.Start`: for every index `i < n` the job
status is set back to `"pending"` and its error/log fields are cleared.
`i` is the index of the head of the remaining list. -/
def resetJobs (n : Nat) : Nat → List ReportJob → List ReportJob
  | _, [] => []
  | i, j :: js =>
    (if i < n then { j with status := "pending", error := "", logID := "" } else j)
      :: resetJobs n (i + 1) js

/-- `Session.Start`: rejected (error, no mutation) unless the state is one of
`Idle, Stopped, Completed, Aborted, Failed`; otherwise the state becomes
`Running`, all counters are reset to 0 and every job is reset to pending
before the worker goroutine is spawned. -/
def Session.Start (s : Session) : Session × Option String :=
  if s.state ≠ .idle ∧ s.state ≠ .stopped ∧ s.state ≠ .completed ∧
      s.state ≠ .aborted ∧ s.state ≠ .failed then
    (s, some "session cannot be started from its current state")
  else
    ({ s with
        state := .running
        reportsAttemptedCount := 0
        successfulReports := 0
        failedReports := 0
        jobs := resetJobs s.numReportsToSend 0 s.jobs },
     none)

/-- `Session.Pause`: rejected unless `Running`; otherwise enqueues the
`"pause"` control command (counters and state untouched until the worker
consumes it). -/
def Session.Pause (s : Session) : Session × Option String :=
  if s.state ≠ .running then
    (s, some "session is not running, cannot pause")
  else
    ({ s with control := s.control ++ ["pause"] }, none)

/-- `Session.Resume`: rejected unless `Paused`; otherwise enqueues the
`"resume"` control command. -/
def Session.Resume (s : Session) : Session × Option String :=
  if s.state ≠ .paused then
    (s, some "session is not paused, cannot resume")
  else
    ({ s with control := s.control ++ ["resume"] }, none)

/-- The synchronous part of `Session.Abort`: a no-op (nil error) from
`Completed, Aborted, Failed, Idle`; otherwise sets the state to `Stopping`
and, unless already stopping, enqueues the `"abort"` command.  The blocking
wait on the worker (and the final `Aborted` confirmation / timeout error) is
concurrency the pure model leaves to the worker semantics. -/
def Session.Abort (s : Session) : Session × Option String :=
  if s.state = .completed ∨ s.state = .aborted ∨ s.state = .failed ∨ s.state = .idle then
    (s, none)
  else if s.state = .stopping then
    ({ s with state := .stopping }, none)
  else
    ({ s with state := .stopping, control := s.control ++ ["abort"] }, none)

/-- The per-attempt update performed by the worker `runLoop` around one
`Reporter.SendReport` call, guarded exactly as the loop body is (it only runs
while `ReportsAttemptedCount < NumReportsToSend` and the state is `Running`):
the current job's status becomes `"success"` / `"failed"` (recording the error
text), the matching counter and `ReportsAttemptedCount` are incremented.
`reportErr = none` models a nil error from `SendReport`. -/
def Session.resolveAttempt (s : Session) (reportErr : Option String) : Session :=
  if s.reportsAttemptedCount < s.numReportsToSend ∧ s.state = .running then
    let idx := s.reportsAttemptedCount
    match reportErr with
    | some e =>
      { s with
          jobs := listUpdateAt (fun j => { j with status := "failed", error := e }) idx s.jobs
          failedReports := s.failedReports + 1
          reportsAttemptedCount := idx + 1 }
    | none =>
      { s with
          jobs := listUpdateAt (fun j => { j with status := "success" }) idx s.jobs
          successfulReports := s.successfulReports + 1
          reportsAttemptedCount := idx + 1 }
  else s

/-- The deferred finaliser of `runLoop` (the non-panic path): if the state is
neither `Aborted` nor `Failed`, a session with all reports attempted becomes
`Completed`, otherwise a non-`Paused` session becomes `Stopped`. -/
def Session.finalizeRunLoop (s : Session) : Session :=
  if s.state ≠ .aborted ∧ s.state ≠ .failed then
    if s.numReportsToSend ≤ s.reportsAttemptedCount then
      { s with state := .completed }
    else if s.state ≠ .paused then
      { s with state := .stopped }
    else s
  else s

/-- The worker `runLoop` in the execution where no control command ever
arrives (the `select` always takes its `default` branch): loop while reports
remain and the state is `Running` or `Paused`; a non-`Running` iteration just
re-loops, a `Running` iteration resolves the next attempt with the dispatch
outcome; on exit the deferred finaliser runs.  `fuel` bounds the number of
iterations (the Go loop may busy-wait; fuel 0 models a cut-off execution). -/
def Session.runLoopNoControl (dispatch : Nat → Option String) :
    Nat → Session → Session
  | 0, s => s
  | fuel + 1, s =>
    if s.numReportsToSend ≤ s.reportsAttemptedCount ∨
        (s.state ≠ .running ∧ s.state ≠ .paused) then
      s.finalizeRunLoop
    else if s.state ≠ .running then
      Session.runLoopNoControl dispatch fuel s
    else
      Session.runLoopNoControl dispatch fuel
        (s.resolveAttempt (dispatch s.reportsAttemptedCount))

/-- The counter invariant of the `Session` data model: attempts started equal
resolved successes plus failures, and never exceed `NumReportsToSend`. -/
def SessionInv (s : Session) : Prop :=
  s.reportsAttemptedCount = s.successfulReports + s.failedReports ∧
  s.reportsAttemptedCount ≤ s.numReportsToSend

instance (s : Session) : Decidable (SessionInv s) := by
  unfold SessionInv; infer_instance

/-- `proxy.ProxyInfo`: one endpoint record.  The `*url.URL` identity is
modelled by its string form; `lastChecked` and `latency` are abstract ticks. -/
structure ProxyInfo where
  url : String
  originalString : String
  source : String
  region : String
  healthStatus : String
  lastChecked : Nat
  latency : Nat
  deriving DecidableEq, Repr

instance : Inhabited ProxyInfo :=
  ⟨{ url := "", originalString := "", source := "", region := "",
     healthStatus := "unknown", lastChecked := 0, latency := 0 }⟩

/-- The three selection errors of `strategy.go`:
`ErrNoProxiesAvailable`, `ErrNoHealthyProxies`, `ErrNoMatchingProxies`. -/
inductive SelectError
  | noProxiesAvailable
  | noHealthyProxies
  | noMatchingProxies
  deriving DecidableEq, Repr

/-- Strategy name constant `StrategyRoundRobin`. -/
def StrategyRoundRobin : String := "round-robin"

/-- Strategy name constant `StrategyRandom`. -/
def StrategyRandom : String := "random"

/-- Strategy name constant `StrategyRegionPrioritized`. -/
def StrategyRegionPrioritized : String := "region-prioritized"

/-- `proxy.ProxyManager`: the pool slice (entries may be Go `nil`, hence
`Option`), the round-robin cursor, the strategy name and the healthy-only
toggle.  The per-manager `rand.Rand` is abstracted: each `GetProxy` call takes
the drawn random number as an argument. -/
structure ProxyManager where
  proxies : List (Option ProxyInfo)
  currentIndex : Nat
  strategy : String
  healthyOnly : Bool
  deriving DecidableEq, Repr

/-- ASCII case folding of one character (the case folding `strings.ToLower` /
`strings.EqualFold` perform on the ASCII region names used by the pool). -/
def goFoldChar (c : Char) : Char :=
  if 65 ≤ c.toNat ∧ c.toNat ≤ 90 then Char.ofNat (c.toNat + 32) else c

/-- Go's `strings.ToLower`, modelled by ASCII case folding (written as an
explicit map over the character list so that it evaluates). -/
def goToLower (s : String) : String := String.mk (s.data.map goFoldChar)

/-- Go's `strings.EqualFold` (case-insensitive equality). -/
def goEqualFold (a b : String) : Bool := goToLower a == goToLower b

/-- `proxy.NewProxyManager` (RNG seeding abstracted). -/
def NewProxyManager (proxies : List (Option ProxyInfo)) (strategy : String)
    (healthyOnly : Bool) : ProxyManager :=
  { proxies := proxies
    currentIndex := 0
    strategy := goToLower strategy
    healthyOnly := healthyOnly }

/-- The candidate filter at the top of `GetProxy`: non-nil entries, restricted
to `HealthStatus == "healthy"` when `HealthyOnly` is set. -/
def ProxyManager.candidateProxies (pm : ProxyManager) : List ProxyInfo :=
  if pm.healthyOnly then
    pm.proxies.filterMap fun p? =>
      match p? with
      | some p => if p.healthStatus = "healthy" then some p else none
      | none => none
  else
    pm.proxies.filterMap id

/-- `ProxyManager.GetProxy`: empty pool and empty-after-filtering are distinct
errors; then the strategy picks from the candidates.  `rnd` is the number the
manager's RNG would produce (`rng.Intn n` is modelled as `rnd % n`);
`targetRegion` models the variadic region argument.  Returns the selected
proxy (or error) together with the updated manager (only the round-robin
branch moves the cursor). -/
def ProxyManager.GetProxy (pm : ProxyManager) (rnd : Nat)
    (targetRegion : Option String) : Except SelectError ProxyInfo × ProxyManager :=
  if pm.proxies = [] then
    (.error .noProxiesAvailable, pm)
  else
    let cand := pm.candidateProxies
    if cand = [] then
      if pm.healthyOnly then (.error .noHealthyProxies, pm)
      else (.error .noMatchingProxies, pm)
    else if pm.strategy = StrategyRandom then
      (.ok (cand.getD (rnd % cand.length) default), pm)
    else if pm.strategy = StrategyRegionPrioritized then
      match targetRegion with
      | none => (.ok (cand.getD (rnd % cand.length) default), pm)
      | some reg =>
        if reg = "" then
          (.ok (cand.getD (rnd % cand.length) default), pm)
        else
          let matched := cand.filter fun p => goEqualFold p.region (goToLower reg)
          if matched = [] then
            (.ok (cand.getD (rnd % cand.length) default), pm)
          else
            (.ok (matched.getD (rnd % matched.length) default), pm)
    else
      (.ok (cand.getD (pm.currentIndex % cand.length) default),
       { pm with currentIndex := (pm.currentIndex + 1) % cand.length })

/-- `n` consecutive `GetProxy` calls (no region argument, the same random draw
each time), threading the manager state; returns the list of results and the
final manager. -/
def ProxyManager.getProxyCalls (pm : ProxyManager) (rnd : Nat) :
    Nat → List (Except SelectError ProxyInfo) × ProxyManager
  | 0 => ([], pm)
  | n + 1 =>
    let r := pm.GetProxy rnd none
    let rest := r.2.getProxyCalls rnd n
    (r.1 :: rest.1, rest.2)

/-- The classified outcome of one executed remote call inside
`Reporter.SendReport` (`r.HTTPClient.Do` plus the body read): a
transport/connection error, a response whose body cannot be read, or a
response with a status code. -/
inductive CallOutcome
  | transportError (msg : String)
  | bodyReadError (msg : String)
  | response (status : Nat)
  deriving DecidableEq, Repr

/-- The errors `Reporter.SendReport` can return, tagged with the 0-based
attempt index the way the Go error strings embed `attempt+1`. -/
inductive SendError
  | getProxyFailed (e : SelectError)
  | requestCreateFailed (msg : String)
  | transportFailed (attempt : Nat) (msg : String)
  | readBodyFailed (attempt : Nat) (msg : String)
  | statusFailed (attempt : Nat) (code : Nat)
  deriving DecidableEq, Repr

/-- Result of a `SendReport` run: the returned error (`none` is a nil Go
error) and how many remote calls (`HTTPClient.Do` executions) were made. -/
structure SendTrace where
  result : Option SendError
  remoteCalls : Nat
  deriving DecidableEq, Repr

/-- The retry loop of `Reporter.SendReport` (report package, current
two-argument version).  `remaining` is the number of loop iterations left
(so the Go loop variable is `attempt = maxRetries - remaining`); `lastErr`
is the accumulated `lastErr`.  Per attempt: proxy acquisition failure and
request-creation failure return immediately (non-retryable, no remote call);
a transport error, an unreadable body and a non-2xx status retry while
`attempt < maxRetries-1` (i.e. iterations remain) and otherwise surface the
last error; a 2xx status returns nil.  `getProxy` abstracts the pool's answer
per attempt, `reqErr` the (per-target, attempt-independent) outcome of
request construction, `call` the remote call. -/
def sendReportAux (maxRetries : Nat) (getProxy : Nat → Except SelectError ProxyInfo)
    (reqErr : Option String) (call : Nat → CallOutcome) :
    Nat → Option SendError → SendTrace
  | 0, lastErr => { result := lastErr, remoteCalls := 0 }
  | remaining + 1, _lastErr =>
    let attempt := maxRetries - (remaining + 1)
    match getProxy attempt with
    | .error e => { result := some (.getProxyFailed e), remoteCalls := 0 }
    | .ok _ =>
      match reqErr with
      | some e => { result := some (.requestCreateFailed e), remoteCalls := 0 }
      | none =>
        match call attempt with
        | .transportError msg =>
          if 0 < remaining then
            let t := sendReportAux maxRetries getProxy reqErr call remaining
              (some (.transportFailed attempt msg))
            { t with remoteCalls := t.remoteCalls + 1 }
          else
            { result := some (.transportFailed attempt msg), remoteCalls := 1 }
        | .bodyReadError msg =>
          if 0 < remaining then
            let t := sendReportAux maxRetries getProxy reqErr call remaining
              (some (.readBodyFailed attempt msg))
            { t with remoteCalls := t.remoteCalls + 1 }
          else
            { result := some (.readBodyFailed attempt msg), remoteCalls := 1 }
        | .response code =>
          if 200 ≤ code ∧ code < 300 then
            { result := none, remoteCalls := 1 }
          else if 0 < remaining then
            let t := sendReportAux maxRetries getProxy reqErr call remaining
              (some (.statusFailed attempt code))
            { t with remoteCalls := t.remoteCalls + 1 }
          else
            { result := some (.statusFailed attempt code), remoteCalls := 1 }

/-- `Reporter.SendReport`: run the retry loop for `maxRetries` iterations
starting with a nil `lastErr` (so `maxRetries = 0` returns nil without any
remote call, exactly as the Go loop would). -/
def SendReport (maxRetries : Nat) (getProxy : Nat → Except SelectError ProxyInfo)
    (reqErr : Option String) (call : Nat → CallOutcome) : SendTrace :=
  sendReportAux maxRetries getProxy reqErr call maxRetries none

/-- An element-by-element copy of a Go slice into a freshly allocated array
(`make` + `copy` in `GetAllProxies`). -/
def copySlice : List α → List α
  | [] => []
  | a :: as => a :: copySlice as

/-- `ProxyManager.GetAllProxies` with pointer aliasing made explicit: the
manager's slice holds pointers (heap indices) to `ProxyInfo` records, and the
method returns a copy of that slice of pointers — not of the records. -/
def GetAllProxies (proxies : List Nat) : List Nat := copySlice proxies

/-- The endpoint records a slice of pointers denotes in a given heap (how the
pool's endpoints are observed by subsequent pool operations). -/
def heapView (heap : List ProxyInfo) (slice : List Nat) : List (Option ProxyInfo) :=
  slice.map fun ptr => heap[ptr]?

/-- A caller-side field mutation performed through position `j` of a snapshot
slice (e.g. `snap[j].HealthStatus = ...`): the heap record the pointer
designates is updated in place. -/
def writeThroughSnapshot (heap : List ProxyInfo) (snap : List Nat) (j : Nat)
    (f : ProxyInfo → ProxyInfo) : List ProxyInfo :=
  match snap[j]? with
  | some ptr => listUpdateAt f ptr heap
  | none => heap

/-- A concrete endpoint record used in witnesses. -/
def mkProxy (u region hs : String) : ProxyInfo :=
  { url := u, originalString := u, source := "pool.csv", region := region,
    healthStatus := hs, lastChecked := 0, latency := 0 }

/-- A concrete fully-resolved `Completed` session (restart input for
witnesses). -/
def finishedSession : Session :=
  { id := ""
    state := .completed
    targetURL := "https://target.example/v1"
    numReportsToSend := 2
    jobs :=
      [{ id := "", reportNumber := 1, status := "success", logID := "L1", error := "" },
       { id := "", reportNumber := 2, status := "failed", logID := "", error := "boom" }]
    reportsAttemptedCount := 2
    successfulReports := 1
    failedReports := 1
    control := [] }

/-- A healthy-only manager whose pool is non-empty but entirely unhealthy. -/
def pmAllUnhealthy : ProxyManager :=
  { proxies := [some (mkProxy "http://p1:8080" "US" "unhealthy"),
                some (mkProxy "http://p2:8080" "EU" "unhealthy")]
    currentIndex := 0
    strategy := StrategyRoundRobin
    healthyOnly := true }

/-- A round-robin manager over three eligible endpoints, cursor at 1. -/
def pmThree : ProxyManager :=
  { proxies := [some (mkProxy "http://p1:8080" "US" "healthy"),
                some (mkProxy "http://p2:8080" "EU" "unknown"),
                some (mkProxy "http://p3:8080" "DE" "unhealthy")]
    currentIndex := 1
    strategy := StrategyRoundRobin
    healthyOnly := false }

/-- A region-prioritized manager with no endpoint in region `"JP"`. -/
def pmTwoRegions : ProxyManager :=
  { proxies := [some (mkProxy "http://p1:8080" "US" "healthy"),
                some (mkProxy "http://p2:8080" "EU" "healthy")]
    currentIndex := 0
    strategy := StrategyRegionPrioritized
    healthyOnly := false }

/-- A one-record heap for the snapshot-aliasing witnesses. -/
def demoHeap : List ProxyInfo := [mkProxy "http://p1:8080" "US" "healthy"]

theorem copySlice_eq (l : List α) : copySlice l = l := by
  induction l with
  | nil => rfl
  | cons a as ih => simp [copySlice, ih]

theorem listUpdateAt_getElem? (f : α → α) (l : List α) (n : Nat) (h : n < l.length) :
    (listUpdateAt f n l)[n]? = some (f (l.get ⟨n, h⟩)) := by
  induction l generalizing n with
  | nil => simp at h
  | cons a as ih =>
    cases n with
    | zero => simp [listUpdateAt]
    | succ m =>
      simp only [listUpdateAt, List.getElem?_cons_succ, List.get_cons_succ]
      exact ih m (by simpa using h)

theorem resetJobs_mem (n : Nat) (i : Nat) (js : List ReportJob)
    (hle : i + js.length ≤ n) :
    ∀ j ∈ resetJobs n i js, j.status = "pending" ∧ j.error = "" := by
  induction js generalizing i with
  | nil => intro j hj; simp [resetJobs] at hj
  | cons a as ih =>
    intro j hj
    have hi : i < n := by simp at hle; omega
    simp only [resetJobs, if_pos hi, List.mem_cons] at hj
    rcases hj with hj | hj
    · subst hj; exact ⟨rfl, rfl⟩
    · exact ih (i + 1) (by simp at hle ⊢; omega) j hj

/-- C1: `Start()` succeeds (nil error) exactly when the state is `Idle`,
`Stopped`, `Completed`, `Aborted` or `Failed`, in which case the state becomes
`Running`; from `Running`, `Paused` or `Stopping` it returns an error and
leaves the entire session record (state, counters, jobs) unchanged. -/
theorem Start_succeeds_iff_startable (s : Session) :
    ((s.Start).2 = none ↔
      s.state = .idle ∨ s.state = .stopped ∨ s.state = .completed ∨
        s.state = .aborted ∨ s.state = .failed) ∧
    ((s.Start).2 ≠ none ↔
      s.state = .running ∨ s.state = .paused ∨ s.state = .stopping) ∧
    ((s.Start).2 = none → (s.Start).1.state = .running) ∧
    ((s.Start).2 ≠ none → (s.Start).1 = s) := by
  cases hs : s.state <;> simp [Session.Start, hs]

/-- Witness for C1: starting a freshly constructed (`Idle`) session succeeds
and leaves it `Running`. -/
theorem Start_succeeds_iff_startable_witness :
    ((NewSession "https://target.example/v1" 2).Start).2 = none ∧
    ((NewSession "https://target.example/v1" 2).Start).1.state = .running := by
  have h := Start_succeeds_iff_startable (NewSession "https://target.example/v1" 2)
  have hidle : (NewSession "https://target.example/v1" 2).state = .idle := rfl
  exact ⟨h.1.mpr (Or.inl hidle), h.2.2.1 (h.1.mpr (Or.inl hidle))⟩

/-- C10: for every `numReportsToSend ≤ 0`, `NewSession` clamps `N` to 1 and
builds a session in state `Idle` with exactly one pending attempt whose
(1-based) `ReportNumber` is 1. -/
theorem NewSession_clamps_nonpositive (url : String) (n : Int) (hn : n ≤ 0) :
    (NewSession url n).numReportsToSend = 1 ∧
    (NewSession url n).state = .idle ∧
    (NewSession url n).jobs =
      [{ id := "", reportNumber := 1, status := "pending", logID := "", error := "" }] := by
  simp [NewSession, hn, List.range_succ]

/-- Witness for C10 at `numReportsToSend = -3`. -/
theorem NewSession_clamps_nonpositive_witness :
    (NewSession "https://target.example/v1" (-3)).numReportsToSend = 1 ∧
    (NewSession "https://target.example/v1" (-3)).state = .idle ∧
    (NewSession "https://target.example/v1" (-3)).jobs =
      [{ id := "", reportNumber := 1, status := "pending", logID := "", error := "" }] :=
  NewSession_clamps_nonpositive "https://target.example/v1" (-3) (by decide)

/-- C5: whenever `Start()` succeeds — in particular on a restart from a
terminal state — the counters `successfulReports`, `failedReports` and
`reportsAttemptedCount` are reset to 0 and every attempt is reset to status
`"pending"` with its error text cleared, before the worker runs.  The length
hypothesis is the `NewSession` guarantee that there is one job per report. -/
theorem Start_resets_counters_and_jobs (s : Session)
    (hlen : s.jobs.length = s.numReportsToSend)
    (hok : (s.Start).2 = none) :
    (s.Start).1.reportsAttemptedCount = 0 ∧
    (s.Start).1.successfulReports = 0 ∧
    (s.Start).1.failedReports = 0 ∧
    ∀ j ∈ (s.Start).1.jobs, j.status = "pending" ∧ j.error = "" := by
  by_cases hc : s.state ≠ .idle ∧ s.state ≠ .stopped ∧ s.state ≠ .completed ∧
      s.state ≠ .aborted ∧ s.state ≠ .failed
  · simp [Session.Start, hc] at hok
  · simp only [Session.Start, if_neg hc]
    exact ⟨trivial, trivial, trivial,
      fun j hj => resetJobs_mem s.numReportsToSend 0 s.jobs (by omega) j hj⟩

/-- Witness for C5: restarting the concrete `Completed` session with used
counters and resolved jobs resets everything. -/
theorem Start_resets_counters_and_jobs_witness :
    (finishedSession.Start).1.reportsAttemptedCount = 0 ∧
    (finishedSession.Start).1.successfulReports = 0 ∧
    (finishedSession.Start).1.failedReports = 0 ∧
    ∀ j ∈ (finishedSession.Start).1.jobs, j.status = "pending" ∧ j.error = "" :=
  Start_resets_counters_and_jobs finishedSession (by decide) (by decide)

theorem resolveAttempt_inv (s : Session) (h : SessionInv s) (o : Option String) :
    SessionInv (s.resolveAttempt o) := by
  obtain ⟨h1, h2⟩ := h
  by_cases hg : s.reportsAttemptedCount < s.numReportsToSend ∧ s.state = .running
  · cases o <;> simp [Session.resolveAttempt, hg, SessionInv] <;> omega
  · simp [Session.resolveAttempt, hg, SessionInv]
    omega

theorem finalizeRunLoop_inv (s : Session) (h : SessionInv s) :
    SessionInv s.finalizeRunLoop := by
  obtain ⟨h1, h2⟩ := h
  unfold Session.finalizeRunLoop SessionInv
  split <;> [skip; exact ⟨h1, h2⟩]
  split <;> [exact ⟨h1, h2⟩; skip]
  split <;> exact ⟨h1, h2⟩

theorem runLoopNoControl_inv (d : Nat → Option String) :
    ∀ (fuel : Nat) (s : Session), SessionInv s →
      SessionInv (Session.runLoopNoControl d fuel s)
  | 0, _, h => h
  | fuel + 1, s, h => by
    unfold Session.runLoopNoControl
    split
    · exact finalizeRunLoop_inv s h
    · split
      · exact runLoopNoControl_inv d fuel s h
      · exact runLoopNoControl_inv d fuel _ (resolveAttempt_inv s h _)

/-- C2: the counter invariant `attemptsStarted = succeeded + failed ∧
attemptsStarted ≤ N` holds for every freshly constructed session and is
preserved by every public operation (`Start`, `Pause`, `Resume`, `Abort`),
by the worker's per-attempt update, by the worker's finaliser and by any
command-free worker execution. -/
theorem session_counter_invariant (s : Session) (h : SessionInv s) :
    (∀ (url : String) (n : Int), SessionInv (NewSession url n)) ∧
    SessionInv (s.Start).1 ∧
    SessionInv (s.Pause).1 ∧
    SessionInv (s.Resume).1 ∧
    SessionInv (s.Abort).1 ∧
    (∀ o, SessionInv (s.resolveAttempt o)) ∧
    SessionInv s.finalizeRunLoop ∧
    (∀ d fuel, SessionInv (Session.runLoopNoControl d fuel s)) := by
  obtain ⟨h1, h2⟩ := h
  refine ⟨?_, ?_, ?_, ?_, ?_, fun o => resolveAttempt_inv s ⟨h1, h2⟩ o,
    finalizeRunLoop_inv s ⟨h1, h2⟩, fun d fuel => runLoopNoControl_inv d fuel s ⟨h1, h2⟩⟩
  · intro url n
    simp [NewSession, SessionInv]
  · unfold Session.Start SessionInv
    split <;> (try simp) <;> omega
  · unfold Session.Pause SessionInv
    split <;> (try simp) <;> omega
  · unfold Session.Resume SessionInv
    split <;> (try simp) <;> omega
  · unfold Session.Abort SessionInv
    split <;> (try split) <;> (try simp) <;> omega

/-- Witness for C2: the invariant holds after starting a fresh session and
after its worker resolves one failed attempt. -/
theorem session_counter_invariant_witness :
    SessionInv ((NewSession "https://target.example/v1" 3).Start).1 ∧
    SessionInv (finishedSession.resolveAttempt (some "boom")) :=
  ⟨(session_counter_invariant (NewSession "https://target.example/v1" 3)
      (by decide)).2.1,
   (session_counter_invariant finishedSession (by decide)).2.2.2.2.2.1 (some "boom")⟩

theorem resolveAttempt_failed_fields (s : Session) (e : String)
    (hg : s.reportsAttemptedCount < s.numReportsToSend) (hs : s.state = .running) :
    (s.resolveAttempt (some e)).state = .running ∧
    (s.resolveAttempt (some e)).numReportsToSend = s.numReportsToSend ∧
    (s.resolveAttempt (some e)).reportsAttemptedCount = s.reportsAttemptedCount + 1 ∧
    (s.resolveAttempt (some e)).successfulReports = s.successfulReports ∧
    (s.resolveAttempt (some e)).failedReports = s.failedReports + 1 := by
  simp [Session.resolveAttempt, hg, hs]

theorem runLoop_allFail (d : Nat → Option String) (hd : ∀ i, d i ≠ none) :
    ∀ (k : Nat) (s : Session), s.state = .running →
      s.reportsAttemptedCount + k = s.numReportsToSend →
      (Session.runLoopNoControl d (k + 1) s).state = .completed ∧
      (Session.runLoopNoControl d (k + 1) s).successfulReports = s.successfulReports ∧
      (Session.runLoopNoControl d (k + 1) s).failedReports = s.failedReports + k ∧
      (Session.runLoopNoControl d (k + 1) s).reportsAttemptedCount =
        s.numReportsToSend := by
  intro k
  induction k with
  | zero =>
    intro s hs hk
    have hdone : s.numReportsToSend ≤ s.reportsAttemptedCount ∨
        (s.state ≠ .running ∧ s.state ≠ .paused) := Or.inl (by omega)
    unfold Session.runLoopNoControl
    rw [if_pos hdone]
    unfold Session.finalizeRunLoop
    rw [if_pos (by simp [hs]), if_pos (by omega)]
    simp [hs]
    omega
  | succ k ih =>
    intro s hs hk
    obtain ⟨e, he⟩ : ∃ e, d s.reportsAttemptedCount = some e := by
      cases hdc : d s.reportsAttemptedCount with
      | none => exact absurd hdc (hd _)
      | some e => exact ⟨e, rfl⟩
    have hg : s.reportsAttemptedCount < s.numReportsToSend := by omega
    have hcond : ¬ (s.numReportsToSend ≤ s.reportsAttemptedCount ∨
        (s.state ≠ .running ∧ s.state ≠ .paused)) := by
      simp [hs]; omega
    have hrun : ¬ (s.state ≠ .running) := by simp [hs]
    unfold Session.runLoopNoControl
    rw [if_neg hcond, if_neg hrun, he]
    obtain ⟨f1, f2, f3, f4, f5⟩ := resolveAttempt_failed_fields s e hg hs
    obtain ⟨g1, g2, g3, g4⟩ := ih (s.resolveAttempt (some e)) f1 (by omega)
    refine ⟨g1, ?_, ?_, ?_⟩
    · rw [g2, f4]
    · rw [g3, f5]; omega
    · rw [g4, f2]

/-- C6: a session every one of whose attempts' dispatch returns an error (run
with no pause/abort commands) still attempts all `N` reports and ends in state
`Completed` with `succeeded = 0` and `failed = N`; per-attempt failures never
produce the `Failed` or `Aborted` state. -/
theorem allFailed_session_completes (url : String) (n : Nat) (hn : 1 ≤ n)
    (d : Nat → Option String) (hd : ∀ i, d i ≠ none) :
    (Session.runLoopNoControl d (n + 1) ((NewSession url (n : Int)).Start).1).state =
      .completed ∧
    (Session.runLoopNoControl d (n + 1)
      ((NewSession url (n : Int)).Start).1).successfulReports = 0 ∧
    (Session.runLoopNoControl d (n + 1)
      ((NewSession url (n : Int)).Start).1).failedReports = n ∧
    (Session.runLoopNoControl d (n + 1)
      ((NewSession url (n : Int)).Start).1).reportsAttemptedCount = n := by
  have h0 : ¬ ((n : Int) ≤ 0) := by omega
  have hstart : ((NewSession url (n : Int)).Start).1.state = .running ∧
      ((NewSession url (n : Int)).Start).1.reportsAttemptedCount = 0 ∧
      ((NewSession url (n : Int)).Start).1.successfulReports = 0 ∧
      ((NewSession url (n : Int)).Start).1.failedReports = 0 ∧
      ((NewSession url (n : Int)).Start).1.numReportsToSend = n := by
    simp [NewSession, Session.Start, h0]
  obtain ⟨hs, ha, hsu, hf, hN⟩ := hstart
  obtain ⟨g1, g2, g3, g4⟩ := runLoop_allFail d hd n ((NewSession url (n : Int)).Start).1
    hs (by omega)
  exact ⟨g1, by omega, by omega, by omega⟩

/-- Witness for C6 at `N = 2` with every dispatch failing. -/
theorem allFailed_session_completes_witness :
    (Session.runLoopNoControl (fun _ => some "transport error") 3
      ((NewSession "https://target.example/v1" (2 : Int)).Start).1).state =
      .completed ∧
    (Session.runLoopNoControl (fun _ => some "transport error") 3
      ((NewSession "https://target.example/v1" (2 : Int)).Start).1).successfulReports = 0 ∧
    (Session.runLoopNoControl (fun _ => some "transport error") 3
      ((NewSession "https://target.example/v1" (2 : Int)).Start).1).failedReports = 2 ∧
    (Session.runLoopNoControl (fun _ => some "transport error") 3
      ((NewSession "https://target.example/v1" (2 : Int)).Start).1).reportsAttemptedCount =
      2 :=
  allFailed_session_completes "https://target.example/v1" 2 (by decide)
    (fun _ => some "transport error") (fun _ => by simp)

theorem candidateProxies_nil_of_empty (pm : ProxyManager) (h : pm.proxies = []) :
    pm.candidateProxies = [] := by
  simp [ProxyManager.candidateProxies, h]

/-- C4: with healthy-only filtering on and a non-empty pool containing no
healthy endpoint, `GetProxy` returns the distinguished `ErrNoHealthyProxies`
error (never an endpoint); this error is distinct from `ErrNoProxiesAvailable`,
which is what an empty pool produces. -/
theorem healthyOnly_no_healthy_error (pm : ProxyManager) (rnd : Nat)
    (tr : Option String) (hho : pm.healthyOnly = true)
    (hne : pm.proxies ≠ [])
    (hnh : ∀ p, some p ∈ pm.proxies → p.healthStatus ≠ "healthy") :
    (pm.GetProxy rnd tr).1 = .error .noHealthyProxies ∧
    SelectError.noHealthyProxies ≠ SelectError.noProxiesAvailable ∧
    ∀ (pm' : ProxyManager) (rnd' : Nat) (tr' : Option String), pm'.proxies = [] →
      (pm'.GetProxy rnd' tr').1 = .error .noProxiesAvailable := by
  refine ⟨?_, by simp, ?_⟩
  · have hcand : pm.candidateProxies = [] := by
      simp only [ProxyManager.candidateProxies, hho, if_true]
      rw [List.filterMap_eq_nil_iff]
      intro p? hp?
      cases p? with
      | none => rfl
      | some p => simp [hnh p hp?]
    simp [ProxyManager.GetProxy, hne, hcand, hho]
  · intro pm' rnd' tr' hp
    simp [ProxyManager.GetProxy, hp]

/-- Witness for C4 at the concrete healthy-only manager whose two endpoints
are both unhealthy. -/
theorem healthyOnly_no_healthy_error_witness :
    (pmAllUnhealthy.GetProxy 0 none).1 = .error .noHealthyProxies ∧
    SelectError.noHealthyProxies ≠ SelectError.noProxiesAvailable := by
  have hnh : ∀ p, some p ∈ pmAllUnhealthy.proxies → p.healthStatus ≠ "healthy" := by
    intro p hp
    simp [pmAllUnhealthy, mkProxy] at hp
    rcases hp with h | h <;> subst h <;> decide
  have h := healthyOnly_no_healthy_error pmAllUnhealthy 0 none (by decide) (by decide) hnh
  exact ⟨h.1, h.2.1⟩

/-- C8: with the region-prioritized strategy, a non-empty eligible set and a
requested region matched (case-insensitively) by none of its endpoints,
`GetProxy` returns some endpoint of the full eligible set and never an
error. -/
theorem regionPrioritized_falls_back (pm : ProxyManager) (rnd : Nat) (reg : String)
    (hs : pm.strategy = StrategyRegionPrioritized)
    (hne : pm.candidateProxies ≠ [])
    (hmatch : ∀ p ∈ pm.candidateProxies, goEqualFold p.region (goToLower reg) = false) :
    ∃ p ∈ pm.candidateProxies, (pm.GetProxy rnd (some reg)).1 = .ok p := by
  have hproxies : pm.proxies ≠ [] := fun h => hne (candidateProxies_nil_of_empty pm h)
  have hlen : 0 < pm.candidateProxies.length := List.length_pos.mpr hne
  have hmem : pm.candidateProxies.getD (rnd % pm.candidateProxies.length) default ∈
      pm.candidateProxies := by
    rw [List.getD_eq_getElem _ _ (Nat.mod_lt _ hlen)]
    exact List.getElem_mem _
  by_cases hreg : reg = ""
  · refine ⟨_, hmem, ?_⟩
    simp [ProxyManager.GetProxy, hproxies, hne, hs, StrategyRegionPrioritized,
      StrategyRandom, hreg]
  · have hfilter :
        pm.candidateProxies.filter (fun p => goEqualFold p.region (goToLower reg)) = [] := by
      rw [List.filter_eq_nil_iff]
      intro p hp
      simp [hmatch p hp]
    refine ⟨_, hmem, ?_⟩
    simp [ProxyManager.GetProxy, hproxies, hne, hs, StrategyRegionPrioritized,
      StrategyRandom, hreg, hfilter]

/-- Witness for C8: requesting region `"JP"` from the concrete two-endpoint
(US/EU) region-prioritized manager falls back to an eligible endpoint. -/
theorem regionPrioritized_falls_back_witness :
    ∃ p ∈ pmTwoRegions.candidateProxies,
      (pmTwoRegions.GetProxy 0 (some "JP")).1 = .ok p :=
  regionPrioritized_falls_back pmTwoRegions 0 "JP" (by decide) (by decide) (by decide)

theorem candidateProxies_cursor (pm : ProxyManager) (i : Nat) :
    ProxyManager.candidateProxies { pm with currentIndex := i } =
      pm.candidateProxies := rfl

theorem getProxy_roundRobin (pm : ProxyManager) (rnd : Nat)
    (hs : pm.strategy = StrategyRoundRobin) (hne : pm.candidateProxies ≠ []) :
    pm.GetProxy rnd none =
      (.ok (pm.candidateProxies.getD (pm.currentIndex % pm.candidateProxies.length)
          default),
       { pm with currentIndex := (pm.currentIndex + 1) % pm.candidateProxies.length }) := by
  have hproxies : pm.proxies ≠ [] := fun h => hne (candidateProxies_nil_of_empty pm h)
  simp [ProxyManager.GetProxy, hproxies, hne, hs, StrategyRoundRobin, StrategyRandom,
    StrategyRegionPrioritized]

theorem getProxyCalls_succ (pm : ProxyManager) (rnd n : Nat) :
    pm.getProxyCalls rnd (n + 1) =
      ((pm.GetProxy rnd none).1 :: ((pm.GetProxy rnd none).2.getProxyCalls rnd n).1,
       ((pm.GetProxy rnd none).2.getProxyCalls rnd n).2) := rfl

theorem getProxyCalls_roundRobin (rnd : Nat) (k : Nat) (hk : 0 < k) :
    ∀ (m : Nat) (pm : ProxyManager), pm.strategy = StrategyRoundRobin →
      pm.candidateProxies.length = k →
      pm.getProxyCalls rnd (m + 1) =
        ((List.range (m + 1)).map fun j =>
          Except.ok (pm.candidateProxies.getD ((pm.currentIndex + j) % k) default),
         { pm with currentIndex := (pm.currentIndex + (m + 1)) % k }) := by
  intro m
  induction m with
  | zero =>
    intro pm hs hlen
    have hne : pm.candidateProxies ≠ [] := by
      intro h; rw [h] at hlen; simp at hlen; omega
    rw [getProxyCalls_succ, getProxy_roundRobin pm rnd hs hne]
    simp [ProxyManager.getProxyCalls, hlen, List.range_succ]
  | succ m ih =>
    intro pm hs hlen
    have hne : pm.candidateProxies ≠ [] := by
      intro h; rw [h] at hlen; simp at hlen; omega
    rw [getProxyCalls_succ, getProxy_roundRobin pm rnd hs hne]
    have ih' := ih
      { pm with currentIndex := (pm.currentIndex + 1) % pm.candidateProxies.length }
      hs (by rw [candidateProxies_cursor]; exact hlen)
    simp only [candidateProxies_cursor] at ih'
    rw [hlen] at ih'
    simp only [ih', hlen, Prod.mk.injEq]
    refine ⟨?_, ?_⟩
    · conv_rhs => rw [List.range_succ_eq_map, List.map_cons, List.map_map]
      refine congrArg₂ List.cons ?_ ?_
      · simp
      · refine List.map_congr_left fun j _ => ?_
        have hmod : ((pm.currentIndex + 1) % k + j) % k =
            (pm.currentIndex + (j + 1)) % k := by
          rw [Nat.mod_add_mod]
          congr 1
          omega
        simp [hmod]
    · have hmod : ((pm.currentIndex + 1) % k + (m + 1)) % k =
          (pm.currentIndex + (m + 1 + 1)) % k := by
        rw [Nat.mod_add_mod]
        congr 1
        omega
      simp [hmod]

theorem getProxyCalls_length_rr (pm : ProxyManager) (rnd k m : Nat) (hk : 0 < k)
    (hs : pm.strategy = StrategyRoundRobin) (hlen : pm.candidateProxies.length = k) :
    (pm.getProxyCalls rnd (m + 1)).1.length = m + 1 := by
  rw [getProxyCalls_roundRobin rnd k hk m pm hs hlen]
  simp

/-- C7: with the round-robin strategy over a fixed eligible set of `k`
endpoints, `k` consecutive `GetProxy` calls return exactly the eligible list
rotated to the shared cursor (so each eligible endpoint exactly once, in
stable order, and never an error), and the cursor persists across calls,
ending back at its starting position modulo `k`. -/
theorem roundRobin_cycles_through_eligible (pm : ProxyManager) (rnd : Nat) (k : Nat)
    (hs : pm.strategy = StrategyRoundRobin)
    (hlen : pm.candidateProxies.length = k) (hk : 0 < k) :
    (pm.getProxyCalls rnd k).1 =
      (pm.candidateProxies.rotate (pm.currentIndex % k)).map Except.ok ∧
    ((pm.getProxyCalls rnd k).1).Perm (pm.candidateProxies.map Except.ok) ∧
    (pm.getProxyCalls rnd k).2 =
      { pm with currentIndex := pm.currentIndex % k } := by
  obtain ⟨m, rfl⟩ : ∃ m, k = m + 1 := ⟨k - 1, by omega⟩
  have hcalls := getProxyCalls_roundRobin rnd (m + 1) hk m pm hs hlen
  have hrot : pm.candidateProxies.rotate (pm.currentIndex % (m + 1)) =
      (List.range (m + 1)).map fun j =>
        pm.candidateProxies.getD ((pm.currentIndex + j) % (m + 1)) default := by
    apply List.ext_getElem
    · simp [hlen]
    · intro n h1 h2
      have hn : n < m + 1 := by simpa [hlen] using h2
      have hidx : (n + pm.currentIndex % (m + 1)) % pm.candidateProxies.length =
          (pm.currentIndex + n) % (m + 1) := by
        rw [hlen, Nat.add_comm n (pm.currentIndex % (m + 1)), Nat.mod_add_mod,
          Nat.add_comm]
      rw [List.getElem_rotate]
      simp only [List.getElem_map, List.getElem_range, hidx]
      rw [List.getD_eq_getElem _ _ (by rw [hlen]; exact Nat.mod_lt _ hk)]
  have hfirst : (pm.getProxyCalls rnd (m + 1)).1 =
      (pm.candidateProxies.rotate (pm.currentIndex % (m + 1))).map Except.ok := by
    rw [hcalls, hrot, List.map_map]
    rfl
  refine ⟨hfirst, ?_, ?_⟩
  · rw [hfirst]
    exact (List.rotate_perm _ _).map Except.ok
  · rw [hcalls]
    simp [Nat.add_mod_right]

/-- Witness for C7 at the concrete three-endpoint round-robin manager with
cursor 1: three calls return the eligible list rotated by one, each endpoint
exactly once, and the cursor returns to 1. -/
theorem roundRobin_cycles_through_eligible_witness :
    (pmThree.getProxyCalls 0 3).1 =
      (pmThree.candidateProxies.rotate (pmThree.currentIndex % 3)).map Except.ok ∧
    ((pmThree.getProxyCalls 0 3).1).Perm (pmThree.candidateProxies.map Except.ok) ∧
    (pmThree.getProxyCalls 0 3).2 =
      { pmThree with currentIndex := pmThree.currentIndex % 3 } :=
  roundRobin_cycles_through_eligible pmThree 0 3 (by rfl) (by decide) (by decide)

/-- C3: with `maxRetries = 3`, a proxy always obtainable and a target whose
every remote call yields a transport error, `SendReport` executes the remote
call exactly 3 times and returns the transport error of the last (third) try:
no fourth call is made and no non-error return occurs. -/
theorem sendReport_three_transport_errors
    (getProxy : Nat → Except SelectError ProxyInfo) (p : Nat → ProxyInfo)
    (hgp : ∀ a, getProxy a = .ok (p a)) (msg : Nat → String) :
    SendReport 3 getProxy none (fun a => .transportError (msg a)) =
      { result := some (.transportFailed 2 (msg 2)), remoteCalls := 3 } := by
  simp [SendReport, sendReportAux, hgp]

/-- Witness for C3 at a concrete always-failing target. -/
theorem sendReport_three_transport_errors_witness :
    SendReport 3 (fun _ => .ok (mkProxy "http://p1:8080" "US" "healthy")) none
      (fun _ => .transportError "proxyconnect: connection refused") =
      { result := some (.transportFailed 2 "proxyconnect: connection refused")
        remoteCalls := 3 } :=
  sendReport_three_transport_errors
    (fun _ => .ok (mkProxy "http://p1:8080" "US" "healthy"))
    (fun _ => mkProxy "http://p1:8080" "US" "healthy") (fun _ => rfl)
    (fun _ => "proxyconnect: connection refused")

/-- Counterexample to C9 as stated: `GetAllProxies` copies only the slice of
pointers, so a caller-side field write through a snapshot element (setting the
only endpoint's health to `"unhealthy"`) changes the endpoint record the pool
observes through subsequent operations. -/
theorem getAllProxies_not_a_deep_copy :
    heapView
      (writeThroughSnapshot demoHeap (GetAllProxies [0]) 0
        (fun p => { p with healthStatus := "unhealthy" }))
      [0] ≠ heapView demoHeap [0] := by
  decide

/-- C9 amended: `GetAllProxies` returns a fresh slice containing the same
endpoint pointers in the same order — so caller mutation of the snapshot slice
itself cannot change the pool's slice — but the pointed-to records are shared:
a field mutation performed through a snapshot element rewrites the very heap
record the pool's slice designates. -/
theorem getAllProxies_shallow_copy (heap : List ProxyInfo) (pool : List Nat)
    (j ptr : Nat) (f : ProxyInfo → ProxyInfo)
    (hj : (GetAllProxies pool)[j]? = some ptr) (hp : ptr < heap.length) :
    GetAllProxies pool = pool ∧
    (writeThroughSnapshot heap (GetAllProxies pool) j f)[ptr]? =
      some (f (heap.get ⟨ptr, hp⟩)) := by
  refine ⟨copySlice_eq pool, ?_⟩
  unfold writeThroughSnapshot
  rw [hj]
  exact listUpdateAt_getElem? f heap ptr hp

/-- Witness for the amended C9 at the one-record heap. -/
theorem getAllProxies_shallow_copy_witness :
    GetAllProxies [0] = [0] ∧
    (writeThroughSnapshot demoHeap (GetAllProxies [0]) 0
        (fun p => { p with healthStatus := "unhealthy" }))[0]? =
      some ({ mkProxy "http://p1:8080" "US" "healthy" with
        healthStatus := "unhealthy" }) :=
  getAllProxies_shallow_copy demoHeap [0] 0 0
    (fun p => { p with healthStatus := "unhealthy" }) (by decide) (by decide)
